import Mathlib

/-!
Verification of the dependency-resolution / conflict-detection / build-orchestration
core of the package_builder repository, as a shallow embedding in Lean.

Python strings are embedded as lists of characters (`Str`); Python dicts that are
only read through `.get` are embedded as lookup functions into `Option`;
subprocess / JSON / hashing collaborators are embedded as explicit parameters
describing their observable outcome, exactly as the spec designates them
(environment, configuration, installer, packaging library, cache store).
-/

abbrev Str := List Char

/-! ## Character and number helpers (SemVer utilities of src/build_manager.py) -/

def isDigitCh (c : Char) : Bool := c.isDigit

def digitVal (c : Char) : Nat := c.toNat - 48

def digitChar : Nat → Char
  | 0 => '0' | 1 => '1' | 2 => '2' | 3 => '3' | 4 => '4'
  | 5 => '5' | 6 => '6' | 7 => '7' | 8 => '8' | 9 => '9'
  | _ => '*'

/-- Embedding of Python `int(s)` restricted to the decimal digit strings that
version components are made of: `some` of the value on a nonempty all-digit
string, `none` (a raised `ValueError`) otherwise. -/
def pyInt (s : Str) : Option Nat :=
  if !s.isEmpty && s.all isDigitCh then
    some (s.foldl (fun a c => 10 * a + digitVal c) 0)
  else none

/-- Decimal rendering of a natural number, as Python `str`/f-strings produce it.
Fuel-based so that it is structurally recursive; digits come out little-endian. -/
def natDigitsRev : Nat → Nat → Str
  | 0, _ => []
  | fuel + 1, n => if n = 0 then [] else digitChar (n % 10) :: natDigitsRev fuel (n / 10)

def natRepr (n : Nat) : Str :=
  if n = 0 then ['0'] else (natDigitsRev (n + 1) n).reverse

/-- Python `s.split(sep, 1)`: the part before the first separator, and
optionally the remainder after it. -/
def splitFirst (sep : Char) : Str → Str × Option Str
  | [] => ([], none)
  | c :: cs =>
    if c = sep then ([], some cs)
    else
      let r := splitFirst sep cs
      (c :: r.1, r.2)

/-- Python `s.split(sep)`: always at least one (possibly empty) segment. -/
def splitAll (sep : Char) : Str → List Str
  | [] => [[]]
  | c :: cs =>
    if c = sep then [] :: splitAll sep cs
    else
      match splitAll sep cs with
      | [] => [[c]]
      | s :: rest => (c :: s) :: rest

/-- Python truthiness of an optional string (`None` and `""` are falsy). -/
def truthyOpt : Option Str → Bool
  | none => false
  | some s => !s.isEmpty

/-! ## BuildManager._parse_semver / _cmp_semver / _semver_matches -/

/-- The i-th numeric component of the split core; a missing trailing component
defaults to 0 (`int(parts[i]) if len(parts) > i else 0`). -/
def compAt (parts : List Str) (i : Nat) : Option Nat :=
  match parts.get? i with
  | some s => pyInt s
  | none => some 0

/-- `BuildManager._parse_semver`: split on the first `-` for the prerelease tag,
split the core on `.`, parse up to three components with `int`; any `int`
failure is caught by the surrounding `try` and yields the all-zero parse. -/
def parse_semver (v : Str) : Nat × Nat × Nat × Option Str :=
  match compAt (splitAll '.' (splitFirst '-' v).1) 0,
        compAt (splitAll '.' (splitFirst '-' v).1) 1,
        compAt (splitAll '.' (splitFirst '-' v).1) 2 with
  | some a, some b, some c => (a, b, c, (splitFirst '-' v).2)
  | _, _, _ => (0, 0, 0, none)

/-- Lexicographic strict order on numeric cores, as Python tuple comparison. -/
def lexLt3 (a1 a2 a3 b1 b2 b3 : Nat) : Bool :=
  decide (a1 < b1) ||
    (decide (a1 = b1) && (decide (a2 < b2) || (decide (a2 = b2) && decide (a3 < b3))))

/-- `BuildManager._cmp_semver`: lexicographic on the numeric core; with equal
cores a version with a (truthy) prerelease tag sorts before one without. -/
def cmp_semver (a b : Str) : Int :=
  let pa := parse_semver a
  let pb := parse_semver b
  if lexLt3 pa.1 pa.2.1 pa.2.2.1 pb.1 pb.2.1 pb.2.2.1 then -1
  else if lexLt3 pb.1 pb.2.1 pb.2.2.1 pa.1 pa.2.1 pa.2.2.1 then 1
  else if truthyOpt pa.2.2.2 && !truthyOpt pb.2.2.2 then -1
  else if truthyOpt pb.2.2.2 && !truthyOpt pa.2.2.2 then 1
  else 0

/-- One atom of `BuildManager._semver_matches`: caret range, tilde range,
explicit comparison operator, or bare exact match, checked in source order. -/
def match_one (version pat : Str) : Bool :=
  if pat.head? = some '^' then
    let base := pat.tail
    let p := parse_semver base
    decide (cmp_semver version base ≥ 0) &&
      decide (cmp_semver version (natRepr (p.1 + 1) ++ ['.', '0', '.', '0']) < 0)
  else if pat.head? = some '~' then
    let base := pat.tail
    let p := parse_semver base
    decide (cmp_semver version base ≥ 0) &&
      decide (cmp_semver version (natRepr p.1 ++ '.' :: natRepr (p.2.1 + 1) ++ ['.', '0']) < 0)
  else if pat.take 2 = ['=', '='] then decide (cmp_semver version (pat.drop 2) = 0)
  else if pat.take 2 = ['>', '='] then decide (cmp_semver version (pat.drop 2) ≥ 0)
  else if pat.take 2 = ['<', '='] then decide (cmp_semver version (pat.drop 2) ≤ 0)
  else if pat.take 1 = ['>'] then decide (cmp_semver version (pat.drop 1) > 0)
  else if pat.take 1 = ['<'] then decide (cmp_semver version (pat.drop 1) < 0)
  else decide (cmp_semver version pat = 0)

/-- Separator class of `re.split(r"[\s,]+", spec)`. -/
def isSepCh (c : Char) : Bool := c = ',' || c.isWhitespace

/-- Maximal runs of non-separator characters: the nonempty stripped atoms that
`_semver_matches` obtains from splitting the spec on commas and whitespace. -/
def wordsAux : Str → Str → List Str
  | [], acc => if acc.isEmpty then [] else [acc.reverse]
  | c :: cs, acc =>
    if isSepCh c then
      if acc.isEmpty then wordsAux cs []
      else acc.reverse :: wordsAux cs []
    else wordsAux cs (c :: acc)

def tokenize (s : Str) : List Str := wordsAux s []

/-- The early-exit atom loop of `_semver_matches`. -/
def matchLoop (version : Str) : List Str → Bool
  | [] => true
  | p :: rest => if match_one version p then matchLoop version rest else false

/-- `BuildManager._semver_matches`. -/
def semver_matches (version spec : Str) : Bool :=
  if (tokenize spec).isEmpty then true
  else matchLoop version (tokenize spec)

/-- Numeral version string with three components, as f-strings build them. -/
def verStr3 (x y z : Nat) : Str := natRepr x ++ '.' :: natRepr y ++ '.' :: natRepr z

/-- Numeral version string with two components. -/
def verStr2 (x y : Nat) : Str := natRepr x ++ '.' :: natRepr y

/-! ## Decimal round-trip lemmas -/

theorem digitChar_spec (d : Nat) (h : d < 10) :
    isDigitCh (digitChar d) = true ∧ digitVal (digitChar d) = d ∧
      digitChar d ≠ '.' ∧ digitChar d ≠ '-' := by
  interval_cases d <;> exact ⟨rfl, rfl, by decide, by decide⟩

theorem natDigitsRev_digits (fuel : Nat) :
    ∀ n, ∀ c ∈ natDigitsRev fuel n, isDigitCh c = true := by
  induction fuel with
  | zero => intro n c hc; simp [natDigitsRev] at hc
  | succ f ih =>
    intro n c hc
    by_cases hn : n = 0
    · simp [natDigitsRev, hn] at hc
    · simp only [natDigitsRev, if_neg hn, List.mem_cons] at hc
      rcases hc with h1 | h2
      · subst h1
        exact (digitChar_spec _ (Nat.mod_lt _ (by norm_num))).1
      · exact ih _ c h2

theorem natDigitsRev_foldr (fuel : Nat) : ∀ n, n < fuel →
    (natDigitsRev fuel n).foldr (fun c a => 10 * a + digitVal c) 0 = n := by
  induction fuel with
  | zero => intro n h; omega
  | succ f ih =>
    intro n h
    by_cases hn : n = 0
    · simp [natDigitsRev, hn]
    · have hdiv : n / 10 < f := by
        have h1 : n / 10 < n := Nat.div_lt_self (Nat.pos_of_ne_zero hn) (by norm_num)
        omega
      simp only [natDigitsRev, if_neg hn, List.foldr_cons]
      rw [ih _ hdiv, (digitChar_spec (n % 10) (Nat.mod_lt _ (by norm_num))).2.1]
      omega

theorem natRepr_digits (n : Nat) : ∀ c ∈ natRepr n, isDigitCh c = true := by
  intro c hc
  unfold natRepr at hc
  by_cases hn : n = 0
  · simp [hn] at hc; subst hc; rfl
  · rw [if_neg hn, List.mem_reverse] at hc
    exact natDigitsRev_digits _ _ c hc

theorem not_mem_natRepr (n : Nat) (c : Char) (h : isDigitCh c = false) :
    c ∉ natRepr n := by
  intro hc
  rw [natRepr_digits n c hc] at h
  exact absurd h (by simp)

theorem pyInt_natRepr (n : Nat) : pyInt (natRepr n) = some n := by
  by_cases hn : n = 0
  · subst hn; decide
  · have hcons : ∃ c cs, natDigitsRev (n + 1) n = c :: cs := by
      unfold natDigitsRev
      rw [if_neg hn]
      exact ⟨_, _, rfl⟩
    rcases hcons with ⟨c, cs, hc⟩
    have hne : (natRepr n).isEmpty = false := by
      unfold natRepr
      rw [if_neg hn, hc]
      simp [List.isEmpty_iff]
    have hall : (natRepr n).all isDigitCh = true := by
      rw [List.all_eq_true]
      intro x hx
      exact natRepr_digits n x hx
    unfold pyInt
    rw [hne, hall]
    simp only [Bool.not_false, Bool.true_and, if_true]
    unfold natRepr
    rw [if_neg hn, List.foldl_reverse]
    exact congrArg some (natDigitsRev_foldr (n + 1) n (Nat.lt_succ_self n))

/-! ## Split lemmas -/

theorem splitFirst_not_mem (sep : Char) (s : Str) (h : sep ∉ s) :
    splitFirst sep s = (s, none) := by
  induction s with
  | nil => rfl
  | cons c cs ih =>
    have hc : ¬ c = sep := by
      rintro rfl
      exact h (List.mem_cons_self _ _)
    have hm : sep ∉ cs := fun hm => h (List.mem_cons_of_mem _ hm)
    simp [splitFirst, hc, ih hm]

theorem splitFirst_append (sep : Char) (a b : Str) (h : sep ∉ a) :
    splitFirst sep (a ++ sep :: b) = (a, some b) := by
  induction a with
  | nil => simp [splitFirst]
  | cons c cs ih =>
    have hc : ¬ c = sep := by
      rintro rfl
      exact h (List.mem_cons_self _ _)
    have hm : sep ∉ cs := fun hm => h (List.mem_cons_of_mem _ hm)
    simp [splitFirst, hc, ih hm]

theorem splitAll_not_mem (sep : Char) (s : Str) (h : sep ∉ s) :
    splitAll sep s = [s] := by
  induction s with
  | nil => rfl
  | cons c cs ih =>
    have hc : ¬ c = sep := by
      rintro rfl
      exact h (List.mem_cons_self _ _)
    have hm : sep ∉ cs := fun hm => h (List.mem_cons_of_mem _ hm)
    simp [splitAll, hc, ih hm]

theorem splitAll_append (sep : Char) (a b : Str) (h : sep ∉ a) :
    splitAll sep (a ++ sep :: b) = a :: splitAll sep b := by
  induction a with
  | nil => simp [splitAll]
  | cons c cs ih =>
    have hc : ¬ c = sep := by
      rintro rfl
      exact h (List.mem_cons_self _ _)
    have hm : sep ∉ cs := fun hm => h (List.mem_cons_of_mem _ hm)
    show splitAll sep (c :: (cs ++ sep :: b)) = (c :: cs) :: splitAll sep b
    rw [splitAll, if_neg hc, ih hm]

/-! ## parse_semver on numeral strings -/

theorem natRepr_no_dot (n : Nat) : '.' ∉ natRepr n :=
  not_mem_natRepr n '.' (by decide)

theorem natRepr_no_dash (n : Nat) : '-' ∉ natRepr n :=
  not_mem_natRepr n '-' (by decide)

theorem mem_verStr3 (x y z : Nat) :
    ∀ c ∈ verStr3 x y z, isDigitCh c = true ∨ c = '.' := by
  intro c hc
  unfold verStr3 at hc
  rcases List.mem_append.mp hc with h | h
  · rcases List.mem_append.mp h with h2 | h2
    · exact Or.inl (natRepr_digits x c h2)
    · rcases List.mem_cons.mp h2 with h3 | h3
      · exact Or.inr h3
      · exact Or.inl (natRepr_digits y c h3)
  · rcases List.mem_cons.mp h with h3 | h3
    · exact Or.inr h3
    · exact Or.inl (natRepr_digits z c h3)

theorem verStr3_no_dash (x y z : Nat) : '-' ∉ verStr3 x y z := by
  intro h
  rcases mem_verStr3 x y z '-' h with h1 | h1
  · exact absurd h1 (by decide)
  · exact absurd h1 (by decide)

theorem verStr2_no_dash (x y : Nat) : '-' ∉ verStr2 x y := by
  intro hc
  unfold verStr2 at hc
  rcases List.mem_append.mp hc with h | h
  · exact natRepr_no_dash x h
  · rcases List.mem_cons.mp h with h3 | h3
    · exact absurd h3 (by decide)
    · exact natRepr_no_dash y h3

theorem splitAll_verStr3 (x y z : Nat) :
    splitAll '.' (verStr3 x y z) = [natRepr x, natRepr y, natRepr z] := by
  unfold verStr3
  simp only [List.append_assoc, List.cons_append]
  rw [splitAll_append '.' (natRepr x) _ (natRepr_no_dot x)]
  rw [splitAll_append '.' (natRepr y) _ (natRepr_no_dot y)]
  rw [splitAll_not_mem '.' (natRepr z) (natRepr_no_dot z)]

theorem splitAll_verStr2 (x y : Nat) :
    splitAll '.' (verStr2 x y) = [natRepr x, natRepr y] := by
  unfold verStr2
  rw [splitAll_append '.' (natRepr x) _ (natRepr_no_dot x)]
  rw [splitAll_not_mem '.' (natRepr y) (natRepr_no_dot y)]

theorem parse_semver_verStr3 (x y z : Nat) :
    parse_semver (verStr3 x y z) = (x, y, z, none) := by
  unfold parse_semver
  rw [splitFirst_not_mem '-' _ (verStr3_no_dash x y z)]
  simp only [splitAll_verStr3, compAt, List.get?_eq_getElem?, List.getElem?_cons_zero,
    List.getElem?_cons_succ, pyInt_natRepr]

theorem parse_semver_verStr2 (x y : Nat) :
    parse_semver (verStr2 x y) = (x, y, 0, none) := by
  unfold parse_semver
  rw [splitFirst_not_mem '-' _ (verStr2_no_dash x y)]
  simp only [splitAll_verStr2, compAt, List.get?_eq_getElem?, List.getElem?_cons_zero,
    List.getElem?_cons_succ, pyInt_natRepr, List.getElem?_nil]

theorem parse_semver_natRepr (x : Nat) :
    parse_semver (natRepr x) = (x, 0, 0, none) := by
  unfold parse_semver
  rw [splitFirst_not_mem '-' _ (natRepr_no_dash x),
      splitAll_not_mem '.' (natRepr x) (natRepr_no_dot x)]
  simp only [compAt, List.get?_eq_getElem?, List.getElem?_cons_zero,
    List.getElem?_cons_succ, pyInt_natRepr, List.getElem?_nil]

/-! ## Claim theorems about the SemVer matcher (C7, C8, C9) -/

theorem match_one_caret (v base : Str) :
    match_one v ('^' :: base)
      = (decide (cmp_semver v base ≥ 0) &&
         decide (cmp_semver v (natRepr ((parse_semver base).1 + 1) ++ ['.', '0', '.', '0']) < 0)) := by
  simp only [match_one, List.head?_cons, List.tail_cons]
  rw [if_pos trivial]

theorem match_one_tilde (v base : Str) :
    match_one v ('~' :: base)
      = (decide (cmp_semver v base ≥ 0) &&
         decide (cmp_semver v
           (natRepr (parse_semver base).1 ++ '.' :: natRepr ((parse_semver base).2.1 + 1) ++ ['.', '0']) < 0)) := by
  simp only [match_one, List.head?_cons, List.tail_cons]
  rw [if_pos trivial, if_neg (by decide)]

/-- C7: the caret atom over a numeral base X.Y.Z is satisfied exactly when the
version is at least X.Y.Z and strictly below (X+1).0.0, and the tilde atom
exactly when the version is at least X.Y.Z and strictly below X.(Y+1).0, both
bounds checked with the matcher's own compare function. -/
theorem caret_tilde_atom_semantics (v : Str) (X Y Z : Nat) :
    match_one v ('^' :: verStr3 X Y Z)
      = (decide (cmp_semver v (verStr3 X Y Z) ≥ 0) &&
         decide (cmp_semver v (verStr3 (X + 1) 0 0) < 0))
  ∧ match_one v ('~' :: verStr3 X Y Z)
      = (decide (cmp_semver v (verStr3 X Y Z) ≥ 0) &&
         decide (cmp_semver v (verStr3 X (Y + 1) 0) < 0)) := by
  have hup1 : natRepr (X + 1) ++ ['.', '0', '.', '0'] = verStr3 (X + 1) 0 0 := by
    simp [verStr3, natRepr]
  have hup2 : natRepr X ++ '.' :: natRepr (Y + 1) ++ ['.', '0'] = verStr3 X (Y + 1) 0 := by
    simp [verStr3, natRepr]
  constructor
  · rw [match_one_caret, parse_semver_verStr3, hup1]
  · rw [match_one_tilde, parse_semver_verStr3, hup2]

theorem matchLoop_eq_all (v : Str) (l : List Str) :
    matchLoop v l = l.all (fun p => match_one v p) := by
  induction l with
  | nil => rfl
  | cons p rest ih =>
    by_cases h : match_one v p
    · simp [matchLoop, h, ih]
    · simp [matchLoop, h]

/-- C8: the matcher result is the conjunction of the independent atom
evaluations over the comma/whitespace split of the spec, and the empty spec
matches every version. -/
theorem semver_matches_conj_of_atoms (v spec : Str) :
    semver_matches v spec = (tokenize spec).all (fun p => match_one v p)
      ∧ semver_matches v [] = true := by
  refine ⟨?_, rfl⟩
  unfold semver_matches
  by_cases h : (tokenize spec).isEmpty
  · rw [if_pos h, List.isEmpty_iff.mp h]
    rfl
  · rw [if_neg h, matchLoop_eq_all]

/-- C9 counterexample: on "1.x.3" the parser does not keep the numeric
components around the non-numeric one; the whole parse degrades to all-zero. -/
theorem parse_semver_component_default_refuted :
    parse_semver ['1', '.', 'x', '.', '3'] = (0, 0, 0, none)
      ∧ parse_semver ['1', '.', 'x', '.', '3'] ≠ (1, 0, 3, none) := by decide

/-- C9 amended: parsing is total (never raises), splits on the first dash for
the prerelease tag and the core on dots, defaults missing trailing components
to 0, and on any non-numeric component degrades the whole parse to
(0, 0, 0, no prerelease) rather than keeping the other components. -/
theorem parse_semver_amended (X Y Z : Nat) (pre : Str) :
    parse_semver (verStr3 X Y Z) = (X, Y, Z, none)
  ∧ parse_semver (verStr2 X Y) = (X, Y, 0, none)
  ∧ parse_semver (natRepr X) = (X, 0, 0, none)
  ∧ parse_semver (verStr3 X Y Z ++ '-' :: pre) = (X, Y, Z, some pre)
  ∧ parse_semver (natRepr X ++ '.' :: 'x' :: '.' :: natRepr Z) = (0, 0, 0, none) := by
  refine ⟨parse_semver_verStr3 X Y Z, parse_semver_verStr2 X Y, parse_semver_natRepr X, ?_, ?_⟩
  · unfold parse_semver
    rw [splitFirst_append '-' _ _ (verStr3_no_dash X Y Z)]
    simp only [splitAll_verStr3, compAt, List.get?_eq_getElem?, List.getElem?_cons_zero,
      List.getElem?_cons_succ, pyInt_natRepr]
  · have hdash : '-' ∉ natRepr X ++ '.' :: 'x' :: '.' :: natRepr Z := by
      intro hc
      rcases List.mem_append.mp hc with h | h
      · exact natRepr_no_dash X h
      · rcases List.mem_cons.mp h with h | h
        · exact absurd h (by decide)
        · rcases List.mem_cons.mp h with h | h
          · exact absurd h (by decide)
          · rcases List.mem_cons.mp h with h | h
            · exact absurd h (by decide)
            · exact natRepr_no_dash Z h
    have hx : '.' ∉ ['x'] := by decide
    have hsplit : splitAll '.' (natRepr X ++ '.' :: 'x' :: '.' :: natRepr Z)
        = [natRepr X, ['x'], natRepr Z] := by
      rw [splitAll_append '.' (natRepr X) _ (natRepr_no_dot X)]
      have : ('x' :: '.' :: natRepr Z) = ['x'] ++ '.' :: natRepr Z := rfl
      rw [this, splitAll_append '.' ['x'] _ hx,
        splitAll_not_mem '.' (natRepr Z) (natRepr_no_dot Z)]
    unfold parse_semver
    rw [splitFirst_not_mem '-' _ hdash]
    simp only [hsplit, compAt, List.get?_eq_getElem?, List.getElem?_cons_zero,
      List.getElem?_cons_succ, pyInt_natRepr]
    rfl

/-! ## src/dependency.py: DependencyResolver -/

def strL (s : String) : Str := s.toList

/-- `ResolvedPackage` dataclass: one installed package and its immediate
requirements `(dep_name, specifier)`. -/
structure ResolvedPackage where
  name : Str
  version : Str
  requires : List (Str × Str)
deriving DecidableEq

/-- `Conflict` dataclass. -/
structure Conflict where
  package : Str
  installed : Str
  required_spec : Str
  depender : Option Str
deriving DecidableEq

/-- Observable outcome of the working-set query run by `_snapshot`: the
`run_python` subprocess either exits non-zero (with some stderr), or its stdout
fails `json.loads` (the exception text and the stdout are carried), or it
parses into a graph (a name-keyed mapping in insertion order). -/
inductive SnapOutcome where
  | exitFail (stderr : Str)
  | parseFail (excText : Str) (stdout : Str)
  | ok (graph : List ResolvedPackage)
deriving DecidableEq

/-- `DependencyResolver._snapshot`: raises RuntimeError (here: `Except.error`)
when the query subprocess exits non-zero or its output fails to parse. -/
def snapshot : SnapOutcome → Except Str (List ResolvedPackage)
  | SnapOutcome.exitFail e => Except.error (strL "Failed to query working set: " ++ e)
  | SnapOutcome.parseFail exc out =>
      Except.error (strL "Failed to parse working set output: " ++ exc ++ strL "\nOutput: " ++ out)
  | SnapOutcome.ok g => Except.ok g

/-- The `packaging` collaborator: `SpecifierSet(spec).contains(Version(v))`,
with `none` standing for a raised parse exception (swallowed per conflict). -/
abbrev PkgMatcher := Str → Str → Option Bool

/-- Dict-style lookup `graph.get(name)` over the snapshot. -/
def graphGet (g : List ResolvedPackage) (n : Str) : Option ResolvedPackage :=
  g.find? (fun p => p.name == n)

/-- First pass of `detect_conflicts`: declared names present in the snapshot
whose installed version fails the declared specifier. -/
def declaredConflicts (m : PkgMatcher) (g : List ResolvedPackage)
    (declared : List (Str × Str)) : List Conflict :=
  declared.foldr (fun p acc =>
    match graphGet g p.1 with
    | none => acc
    | some dist =>
      if p.2.isEmpty then acc
      else
        match m p.2 dist.version with
        | some false => ⟨p.1, dist.version, p.2, none⟩ :: acc
        | _ => acc) []

/-- Second pass of `detect_conflicts`: every package's own requirements checked
against the snapshot, tagging the requiring package as `depender`. -/
def transitiveConflicts (m : PkgMatcher) (g : List ResolvedPackage) : List Conflict :=
  g.foldr (fun dist acc =>
    dist.requires.foldr (fun rq acc2 =>
      match graphGet g rq.1 with
      | none => acc2
      | some dep =>
        if rq.2.isEmpty then acc2
        else
          match m rq.2 dep.version with
          | some false => ⟨rq.1, dep.version, rq.2, some dist.name⟩ :: acc2
          | _ => acc2) acc) []

/-- `DependencyResolver.detect_conflicts`: the snapshot is taken OUTSIDE any
try, so a snapshot failure propagates; with a successful snapshot, an import
failure of the `packaging` library (`m = none`) returns the empty list, and
otherwise both passes run. -/
def detect_conflicts (m : Option PkgMatcher) (s : SnapOutcome)
    (declared : List (Str × Str)) : Except Str (List Conflict) :=
  match snapshot s with
  | Except.error e => Except.error e
  | Except.ok g =>
    match m with
    | none => Except.ok []
    | some mc => Except.ok (declaredConflicts mc g declared ++ transitiveConflicts mc g)

/-- Python `spec.strip()` truthiness for a specifier string. -/
def stripTruthy (s : Str) : Bool := s.any (fun c => !c.isWhitespace)

/-- The pip requirement string `f"{name}{spec}"` (bare name when the specifier
is empty/whitespace), as `install_declared` builds it. -/
def reqString (name spec : Str) : Str := if stripTruthy spec then name ++ spec else name

/-- `DependencyResolver.install_declared`: one `pip install` invocation per
declared package, in order, raising (flag `false`) at the first non-zero exit.
Returns the invocations actually made and whether the loop completed. -/
def install_declared (pip : Str → Int) : List (Str × Str) → List Str × Bool
  | [] => ([], true)
  | (name, spec) :: rest =>
    if pip (reqString name spec) = 0 then
      ((reqString name spec) :: (install_declared pip rest).1, (install_declared pip rest).2)
    else ([reqString name spec], false)

/-! ## src/backends/python_common.py: ensure_and_copy_dependencies -/

/-- Outcome of the statement `resolver.install_and_resolve(dependencies)`:
`DependencyResolver` defines `install_declared` but no attribute named
`install_and_resolve`, so on any input the lookup raises AttributeError inside
the try block, before a single pip invocation is made. -/
inductive InstallPhase where
  | raisedAttributeError
deriving DecidableEq

def install_phase (_deps : List (Str × Str)) : InstallPhase × List Str :=
  (InstallPhase.raisedAttributeError, [])

/-- The remediation loop over detected conflicts: for each conflict, one
`pip install f"{c.package}{c.required_spec}"`; a non-zero exit only prints and
the per-iteration try swallows everything, so the loop always visits every
conflict. Returns (attempted requirement strings, packages whose fix failed). -/
def remediate (pip : Str → Int) : List Conflict → List Str × List Str
  | [] => ([], [])
  | c :: rest =>
    ((c.package ++ c.required_spec) :: (remediate pip rest).1,
     (if pip (c.package ++ c.required_spec) ≠ 0 then [c.package] else [])
       ++ (remediate pip rest).2)

/-- One line of the final conflict report: `"  {pkg}: installed {v}, required {spec}"`. -/
def conflictLine (c : Conflict) : Str :=
  strL "  " ++ c.package ++ strL ": installed " ++ c.installed
    ++ strL ", required " ++ c.required_spec

/-- Python `sep.join(items)`. -/
def pyJoin (sep : Str) : List Str → Str
  | [] => []
  | [x] => x
  | x :: y :: rest => x ++ sep ++ pyJoin sep (y :: rest)

/-- The RuntimeError message listing the remaining conflicts. -/
def conflictsMessage (cs : List Conflict) : Str :=
  strL "Dependency conflicts could not be automatically resolved:\n"
    ++ pyJoin (strL "\n") (cs.map conflictLine)

/-- Observable result of the install-and-resolve part of
`ensure_and_copy_dependencies` (lines 70-91 of python_common.py):
which pip invocations the install phase made, which remediation installs were
attempted, and the RuntimeError message if one is raised. The two
`detect_conflicts` results are passed in as the outcomes of the two detection
calls (the environment changes between them). -/
structure CycleResult where
  installPhaseInvocations : List Str
  remediationInvocations : List Str
  raisedMessage : Option Str
deriving DecidableEq

def ensure_install_cycle (pip : Str → Int) (deps : List (Str × Str))
    (detectA detectB : List Conflict) : CycleResult :=
  match install_phase deps with
  | (InstallPhase.raisedAttributeError, tr) =>
    if detectA.isEmpty then ⟨tr, [], none⟩
    else
      if detectB.isEmpty then ⟨tr, (remediate pip detectA).1, none⟩
      else ⟨tr, (remediate pip detectA).1, some (conflictsMessage detectB)⟩

/-! ## Claim theorems about the resolver and the conflict cycle (C2, C3, C4, C10) -/

theorem mem_pyJoin_infix (sep : Str) :
    ∀ (l : List Str) (x : Str), x ∈ l → x <:+: pyJoin sep l := by
  intro l
  induction l with
  | nil => intro x hx; exact absurd hx (List.not_mem_nil x)
  | cons a rest ih =>
    intro x hx
    cases rest with
    | nil =>
      rcases List.mem_cons.mp hx with h | h
      · subst h; exact List.infix_refl _
      · exact absurd h (List.not_mem_nil x)
    | cons b rest2 =>
      rcases List.mem_cons.mp hx with h | h
      · subst h
        exact ⟨[], sep ++ pyJoin sep (b :: rest2), by simp [pyJoin, List.append_assoc]⟩
      · rcases ih x h with ⟨s, t, hst⟩
        exact ⟨a ++ sep ++ s, t, by
          show a ++ sep ++ s ++ x ++ t = pyJoin sep (a :: b :: rest2)
          rw [show pyJoin sep (a :: b :: rest2) = a ++ sep ++ pyJoin sep (b :: rest2) from rfl,
              ← hst]
          simp [List.append_assoc]⟩

theorem conflictLine_infix_message (cs : List Conflict) (c : Conflict) (h : c ∈ cs) :
    conflictLine c <:+: conflictsMessage cs := by
  rcases mem_pyJoin_infix (strL "\n") (cs.map conflictLine) (conflictLine c)
      (List.mem_map_of_mem _ h) with ⟨s, t, hst⟩
  refine ⟨strL "Dependency conflicts could not be automatically resolved:\n" ++ s, t, ?_⟩
  rw [conflictsMessage, ← hst]
  simp [List.append_assoc]

theorem remediate_attempts_all (pip : Str → Int) (cs : List Conflict) :
    (remediate pip cs).1 = cs.map (fun c => c.package ++ c.required_spec) := by
  induction cs with
  | nil => rfl
  | cons c rest ih => simp [remediate, ih]

/-- C4: when the cycle detects conflicts, the remediation loop attempts exactly
one install per conflicting package, built as package name ++ exact required
specifier, for every conflict regardless of the pip outcomes (an individual
failure stops nothing); and when conflicts remain after re-detection, the
raised message enumerates every remaining conflict as
"pkg: installed X, required Y". -/
theorem conflict_remediation_contract (pip : Str → Int) (deps : List (Str × Str))
    (dA dB : List Conflict) (hA : dA ≠ [])
    (hone : (dA.map Conflict.package).Nodup) :
    (ensure_install_cycle pip deps dA dB).remediationInvocations
        = dA.map (fun c => c.package ++ c.required_spec)
    ∧ (dB ≠ [] →
        (ensure_install_cycle pip deps dA dB).raisedMessage = some (conflictsMessage dB)
        ∧ ∀ c ∈ dB, conflictLine c <:+: conflictsMessage dB) := by
  have hAe : dA.isEmpty = false := by
    cases dA with
    | nil => exact absurd rfl hA
    | cons c rest => rfl
  constructor
  · by_cases hB : dB.isEmpty <;>
      simp [ensure_install_cycle, install_phase, hAe, hB, remediate_attempts_all]
  · intro hBne
    have hBe : dB.isEmpty = false := by
      cases dB with
      | nil => exact absurd rfl hBne
      | cons c rest => rfl
    refine ⟨?_, fun c hc => conflictLine_infix_message dB c hc⟩
    simp [ensure_install_cycle, install_phase, hAe, hBe]

def cA : Conflict := ⟨strL "foo", strL "2.0.0", strL "^1.2.0", none⟩

theorem conflict_remediation_contract_witness :
    (ensure_install_cycle (fun _ => (1 : Int)) [] [cA] [cA]).remediationInvocations
        = [cA].map (fun c => c.package ++ c.required_spec)
    ∧ (ensure_install_cycle (fun _ => (1 : Int)) [] [cA] [cA]).raisedMessage
        = some (conflictsMessage [cA])
    ∧ ∀ c ∈ [cA], conflictLine c <:+: conflictsMessage [cA] := by
  have h := conflict_remediation_contract (fun _ => (1 : Int)) [] [cA] [cA]
    (by decide) (by decide)
  have h2 := h.2 (by decide)
  exact ⟨h.1, h2.1, h2.2⟩

def fooDecl : List (Str × Str) := [(strL "foo", strL ">=1.0")]

/-- C2 (code bug): the install phase of the cycle makes no installer invocation
at all, because `resolver.install_and_resolve` names a method that does not
exist on DependencyResolver; for contrast, the method the call site intends,
`install_declared`, performs exactly one invocation per declared package with
the name concatenated to its non-empty specifier. -/
theorem install_phase_makes_no_invocation :
    (ensure_install_cycle (fun _ => (0 : Int)) fooDecl [] []).installPhaseInvocations = []
    ∧ (ensure_install_cycle (fun _ => (0 : Int)) fooDecl [] []).raisedMessage = none
    ∧ install_declared (fun _ => (0 : Int)) fooDecl = ([strL "foo" ++ strL ">=1.0"], true) := by
  refine ⟨rfl, rfl, ?_⟩
  decide

/-- C3 (code bug): `detect_conflicts` takes the snapshot outside any try, so a
failing working-set query (non-zero exit, or unparseable output) propagates as
a RuntimeError instead of yielding the empty conflict list. -/
theorem detect_conflicts_raises_on_query_failure :
    detect_conflicts (some (fun _ _ => some true)) (SnapOutcome.exitFail (strL "boom")) fooDecl
      = Except.error (strL "Failed to query working set: " ++ strL "boom")
    ∧ detect_conflicts (some (fun _ _ => some true))
        (SnapOutcome.parseFail (strL "err") (strL "junk")) fooDecl
      = Except.error (strL "Failed to parse working set output: " ++ strL "err"
          ++ strL "\nOutput: " ++ strL "junk")
    ∧ ∀ cs : List Conflict,
        detect_conflicts (some (fun _ _ => some true)) (SnapOutcome.exitFail (strL "boom"))
          fooDecl ≠ Except.ok cs := by
  refine ⟨rfl, rfl, ?_⟩
  intro cs h
  exact Except.noConfusion h

def gEx : List ResolvedPackage := [⟨strL "foo", strL "2.0.0", []⟩]

def dEx : List (Str × Str) := [(strL "foo", strL "^1.2.0")]

/-- C10: when the packaging library cannot be imported, detect_conflicts
returns the empty conflict list for every declared mapping and snapshot; with
the library available the same snapshot and declaration do report a conflict. -/
theorem packaging_unavailable_suppresses_conflicts :
    (∀ (declared : List (Str × Str)) (g : List ResolvedPackage),
        detect_conflicts none (SnapOutcome.ok g) declared = Except.ok [])
    ∧ detect_conflicts (some (fun _ _ => some false)) (SnapOutcome.ok gEx) dEx
        = Except.ok [⟨strL "foo", strL "2.0.0", strL "^1.2.0", none⟩] := by
  refine ⟨fun d g => rfl, ?_⟩
  rfl

/-! ## src/build_manager.py: BuildManager._strict_dependency_check -/

/-- `name.replace("-", "_")`. -/
def underscored (n : Str) : Str := n.map (fun c => if c = '-' then '_' else c)

/-- Python `a or b` over optional version strings (`None` and `""` are falsy). -/
def pyOrStr : Option Str → Option Str → Option Str
  | some s, b => if s.isEmpty then b else some s
  | none, b => b

/-- Per-dependency diagnostic printed by the strict check. -/
inductive Report where
  | missing (name spec : Str)
  | mismatch (name spec installed : Str)
  | passed (name installed : Str)
deriving DecidableEq

def reportName : Report → Str
  | Report.missing n _ => n
  | Report.mismatch n _ _ => n
  | Report.passed n _ => n

def reportPasses : Report → Bool
  | Report.passed _ _ => true
  | _ => false

/-- The loop body of `_strict_dependency_check` for one declared `(name, spec)`:
look the name up in the merged view with the Python `or` chain (exact name,
then hyphen-to-underscore form), report missing when falsy, mismatch when a
non-empty spec fails the SemVer matcher, pass otherwise. -/
def dep_check_one (merged : Str → Option Str) (name spec : Str) : Report :=
  match pyOrStr (merged name) (merged (underscored name)) with
  | none => Report.missing name spec
  | some v =>
    if v.isEmpty then Report.missing name spec
    else if !spec.isEmpty && !semver_matches v spec then Report.mismatch name spec v
    else Report.passed name v

/-- The full loop: `all_ok` is accumulated over every declared dependency, and
one report is produced per dependency (the loop never exits early). -/
def strict_check_list (merged : Str → Option Str) : List (Str × Str) → Bool × List Report
  | [] => (true, [])
  | (name, spec) :: rest =>
    (reportPasses (dep_check_one merged name spec) && (strict_check_list merged rest).1,
     dep_check_one merged name spec :: (strict_check_list merged rest).2)

/-- `BuildManager._strict_dependency_check`: trivially true with no declared
dependencies; otherwise the merged view is the system listing updated by the
venv listing (venv entries win on collision) and the loop runs over every
declared non-dev dependency. -/
def strict_dependency_check (declared : List (Str × Str))
    (venvPkgs sysPkgs : Str → Option Str) : Bool × List Report :=
  if declared.isEmpty then (true, [])
  else strict_check_list (fun n => (venvPkgs n).orElse (fun _ => sysPkgs n)) declared

/-- The claim's own wording of a dependency passing: found in the merged view
under the exact name or under the underscored name, and (for a non-empty spec)
the found version satisfies the matcher. -/
def claim_dep_passes (merged : Str → Option Str) (name spec : Str) : Bool :=
  match (merged name).orElse (fun _ => merged (underscored name)) with
  | none => false
  | some v => spec.isEmpty || semver_matches v spec

/-! ## Claim theorem for the strict dependency check (C5) -/

theorem pyOr_eq_orElse (a b : Option Str) (ha : ∀ v, a = some v → v ≠ []) :
    pyOrStr a b = a.orElse (fun _ => b) := by
  cases a with
  | none => rfl
  | some v =>
    have hv : v.isEmpty = false := by
      have h := ha v rfl
      cases v with
      | nil => exact absurd rfl h
      | cons c l => rfl
    simp [pyOrStr, Option.orElse, hv]

theorem chain_nonempty (a b : Option Str) (ha : ∀ v, a = some v → v ≠ [])
    (hb : ∀ v, b = some v → v ≠ []) (v : Str) (hv : pyOrStr a b = some v) : v ≠ [] := by
  cases a with
  | none => exact hb v hv
  | some w =>
    have hw : w.isEmpty = false := by
      have h := ha w rfl
      cases w with
      | nil => exact absurd rfl h
      | cons c l => rfl
    simp only [pyOrStr, hw, Bool.false_eq_true, if_false, Option.some.injEq] at hv
    subst hv
    exact ha w rfl

theorem dep_check_one_agrees (merged : Str → Option Str)
    (hm : ∀ n v, merged n = some v → v ≠ []) (name spec : Str) :
    reportPasses (dep_check_one merged name spec) = claim_dep_passes merged name spec
      ∧ reportName (dep_check_one merged name spec) = name := by
  have hmain : ∀ v, merged name = some v → v ≠ [] := fun v h => hm name v h
  have hund : ∀ v, merged (underscored name) = some v → v ≠ [] :=
    fun v h => hm (underscored name) v h
  have hch := pyOr_eq_orElse (merged name) (merged (underscored name)) hmain
  unfold dep_check_one claim_dep_passes
  rw [← hch]
  cases ho : pyOrStr (merged name) (merged (underscored name)) with
  | none => exact ⟨rfl, rfl⟩
  | some v =>
    have hv : v.isEmpty = false := by
      have h := chain_nonempty _ _ hmain hund v ho
      cases v with
      | nil => exact absurd rfl h
      | cons c l => rfl
    cases hs : spec.isEmpty <;> cases hmt : semver_matches v spec <;>
      simp [hv, hs, hmt, reportPasses, reportName]

theorem strict_check_list_spec (merged : Str → Option Str)
    (hm : ∀ n v, merged n = some v → v ≠ []) (declared : List (Str × Str)) :
    (strict_check_list merged declared).1
        = declared.all (fun p => claim_dep_passes merged p.1 p.2)
    ∧ (strict_check_list merged declared).2.map reportName = declared.map Prod.fst := by
  induction declared with
  | nil => exact ⟨rfl, rfl⟩
  | cons p rest ih =>
    cases p with
    | mk n s =>
      have h1 := dep_check_one_agrees merged hm n s
      constructor
      · show (reportPasses (dep_check_one merged n s) && (strict_check_list merged rest).1)
            = (claim_dep_passes merged n s && rest.all (fun p => claim_dep_passes merged p.1 p.2))
        rw [h1.1, ih.1]
      · show reportName (dep_check_one merged n s)
            :: ((strict_check_list merged rest).2.map reportName)
            = n :: rest.map Prod.fst
        rw [h1.2, ih.2]

/-- C5: under lookups whose present versions are nonempty strings, the strict
check returns true exactly when every declared non-dev dependency passes in
the claim's sense (found in the venv-over-host merged view under the exact or
underscored name, and a non-empty spec is satisfied by the found version), and
it emits one report per declared dependency, in order, never short-circuiting. -/
theorem strict_check_all_and_reports (declared : List (Str × Str))
    (venvPkgs sysPkgs : Str → Option Str)
    (hv : ∀ n v, venvPkgs n = some v → v ≠ [])
    (hs : ∀ n v, sysPkgs n = some v → v ≠ []) :
    (strict_dependency_check declared venvPkgs sysPkgs).1
        = declared.all (fun p => claim_dep_passes
            (fun n => (venvPkgs n).orElse (fun _ => sysPkgs n)) p.1 p.2)
    ∧ (strict_dependency_check declared venvPkgs sysPkgs).2.map reportName
        = declared.map Prod.fst := by
  have hmerged : ∀ n v, (venvPkgs n).orElse (fun _ => sysPkgs n) = some v → v ≠ [] := by
    intro n v h
    cases hvn : venvPkgs n with
    | some w =>
      rw [hvn] at h
      simp only [Option.orElse, Option.some.injEq] at h
      subst h
      exact hv n w hvn
    | none =>
      rw [hvn] at h
      simp only [Option.orElse] at h
      exact hs n v h
  unfold strict_dependency_check
  by_cases hd : declared.isEmpty
  · rw [if_pos hd, List.isEmpty_iff.mp hd]
    exact ⟨rfl, rfl⟩
  · rw [if_neg hd]
    exact strict_check_list_spec _ hmerged declared

theorem strict_check_all_and_reports_witness :
    (strict_dependency_check [(strL "foo", strL "^1.2.0")]
        (fun _ => some (strL "1.2.5")) (fun _ => none)).1
      = [(strL "foo", strL "^1.2.0")].all (fun p => claim_dep_passes
          (fun n => ((fun (_ : Str) => some (strL "1.2.5")) n).orElse
            (fun _ => (fun (_ : Str) => (none : Option Str)) n)) p.1 p.2)
    ∧ (strict_dependency_check [(strL "foo", strL "^1.2.0")]
        (fun _ => some (strL "1.2.5")) (fun _ => none)).2.map reportName
      = [(strL "foo", strL "^1.2.0")].map Prod.fst := by
  exact strict_check_all_and_reports [(strL "foo", strL "^1.2.0")]
    (fun _ => some (strL "1.2.5")) (fun _ => none)
    (by
      intro n v h
      injection h with h2
      rw [← h2]
      decide)
    (by
      intro n v h
      exact absurd h (by simp))

/-! ## src/build_manager.py: BuildManager.build orchestration -/

inductive DepsType where
  | build
  | project
deriving DecidableEq

/-- Plugin hook call sites of the build flow, with the event name each one
publishes to the plugin manager (`before(event, ctx)`). -/
inductive Hook where
  | venv
  | depsInstall (t : DepsType)
  | buildPre
  | backendPrepare (n : Str)
  | backendBuild (n : Str)
deriving DecidableEq

def hookEvent : Hook → String
  | Hook.venv => "venv"
  | Hook.depsInstall _ => "deps_install"
  | Hook.buildPre => "build"
  | Hook.backendPrepare _ => "backend_prepare"
  | Hook.backendBuild _ => "backend_build"

/-- The `build` section of the configuration mapping as `build` reads it:
`get("backend", "python")` and `get("backends", [])`. -/
structure ProjectConfig where
  buildBackend : Option Str
  buildBackends : List Str
deriving DecidableEq

/-- Persisted per-backend cache file: absent, unreadable, or a parsed JSON
object whose "key" entry may be missing. -/
inductive CacheFile where
  | missing
  | corrupt
  | entry (key : Option Str)
deriving DecidableEq

/-- `ProjectInitializer._should_skip_build` (build_manager.py:944): false when
the cache file is absent or unreadable, otherwise whether the stored key equals
the computed cache key. -/
def should_skip_build (cf : CacheFile) (computedKey : Str) : Bool :=
  match cf with
  | CacheFile.missing => false
  | CacheFile.corrupt => false
  | CacheFile.entry k => k == some computedKey

/-- Observable events of one `BuildManager.build` run: installer invocations
and backend work units submitted to (or skipped before) the worker pool. -/
inductive Ev where
  | installBuildDep (req : Str)
  | installProjectDeps
  | submitBackend (name : Str)
  | skipBackend (name : Str)
deriving DecidableEq

/-- The collaborators and environment state one `build` call observes.
`cacheKey` stands for `ProjectInitializer._cache_key`: the SHA-256 over the
backend name and the key-sorted JSON serialization of the configuration,
treated as an opaque deterministic function of (name, config). -/
structure World where
  configExists : Bool
  config : ProjectConfig
  configErrors : List String
  envExists : Bool
  envCreateOk : Bool
  pluginBefore : Hook → Bool
  backendKnown : Str → Bool
  backendReqs : Str → List Str
  installReq : Str → Bool
  installProjectOk : Bool
  declaredDeps : List (Str × Str)
  venvPkgs : Str → Option Str
  sysPkgs : Str → Option Str
  runBackend : Str → Bool
  cacheFile : Str → CacheFile
  cacheKey : Str → ProjectConfig → Str

def pythonName : Str := strL "python"

/-- Backend-name selection: the primary name `build.get("backend", "python")`
when truthy, then the extra `build.backends` names deduplicated in first-seen
order. -/
def selectedBackends (c : ProjectConfig) : List Str :=
  c.buildBackends.foldl
    (fun acc n => if acc.contains n then acc else acc ++ [n])
    (if (c.buildBackend.getD pythonName).isEmpty then []
     else [c.buildBackend.getD pythonName])

/-- First-seen-order deduplicating append of one backend's requirement list. -/
def dedupAppend (acc : List Str) : List Str → List Str
  | [] => acc
  | r :: rs => if acc.contains r then dedupAppend acc rs else dedupAppend (acc ++ [r]) rs

/-- Union of all selected backends' build requirements, deduplicated in
first-seen order, collected before any installation. -/
def collectReqs (w : World) (names : List Str) : List Str :=
  names.foldl (fun acc n => dedupAppend acc (w.backendReqs n)) []

/-- The build-dependency install loop: one `dep_manager.install(req)` per
requirement, stopping at the first failure. -/
def installLoop (w : World) : List Str → Bool × List Ev
  | [] => (true, [])
  | r :: rs =>
    if w.installReq r then
      ((installLoop w rs).1, Ev.installBuildDep r :: (installLoop w rs).2)
    else (false, [Ev.installBuildDep r])

/-- `getattr(self, "_should_skip_build", None)` evaluated on a BuildManager
instance: `_should_skip_build` (and `_update_cache`) are defined on
`ProjectInitializer`, not on `BuildManager`, so the lookup yields None and the
`callable(...)` guard makes the cache short-circuit branch unreachable. -/
def buildManagerSkipFn : Option (Str → ProjectConfig → Bool) := none

/-- The concurrent backend phase: each selected backend is cache-checked (dead
branch, see `buildManagerSkipFn`) and otherwise submitted as a work unit; the
overall flag is `all(results) if results else True`. -/
def concurrentPhase (w : World) (names : List Str) : Bool × List Ev :=
  ((if (names.map (fun n =>
        match buildManagerSkipFn with
        | some skip => if skip n w.config then true else w.runBackend n
        | none => w.runBackend n)).isEmpty then true
    else (names.map (fun n =>
        match buildManagerSkipFn with
        | some skip => if skip n w.config then true else w.runBackend n
        | none => w.runBackend n)).all id),
   (names.map (fun n =>
        match buildManagerSkipFn with
        | some skip => if skip n w.config then [Ev.skipBackend n] else [Ev.submitBackend n]
        | none => [Ev.submitBackend n])).flatten)

/-- The build-dependency phase result: skipped entirely when no requirement was
collected, otherwise the install loop. -/
def buildStepInstall (w : World) (reqs : List Str) : Bool × List Ev :=
  if reqs.isEmpty then (true, []) else installLoop w reqs

def buildBackendNames (w : World) : List Str := selectedBackends w.config

def buildReqsOf (w : World) : List Str := collectReqs w (buildBackendNames w)

/-- `BuildManager.build`: the sequential phase gates in source order (config
presence, validation, venv hook + creation, backend resolution, build-deps
hook + install loop, project-deps hook + install, strict check, pre-build
hook), then the concurrent backend phase. Returns the boolean result and the
observable installer/submission events in program order. -/
def buildRun (w : World) : Bool × List Ev :=
  if !w.configExists then (false, [])
  else if !w.configErrors.isEmpty then (false, [])
  else if !w.envExists && !w.pluginBefore Hook.venv then (false, [])
  else if !w.envExists && !w.envCreateOk then (false, [])
  else if !((buildBackendNames w).all w.backendKnown) then (false, [])
  else if !(buildReqsOf w).isEmpty && !w.pluginBefore (Hook.depsInstall DepsType.build) then
    (false, [])
  else if !(buildStepInstall w (buildReqsOf w)).1 then
    (false, (buildStepInstall w (buildReqsOf w)).2)
  else if !w.pluginBefore (Hook.depsInstall DepsType.project) then
    (false, (buildStepInstall w (buildReqsOf w)).2)
  else if !w.installProjectOk then
    (false, (buildStepInstall w (buildReqsOf w)).2 ++ [Ev.installProjectDeps])
  else if !(strict_dependency_check w.declaredDeps w.venvPkgs w.sysPkgs).1 then
    (false, (buildStepInstall w (buildReqsOf w)).2 ++ [Ev.installProjectDeps])
  else if !w.pluginBefore Hook.buildPre then
    (false, (buildStepInstall w (buildReqsOf w)).2 ++ [Ev.installProjectDeps])
  else
    ((concurrentPhase w (buildBackendNames w)).1,
     (buildStepInstall w (buildReqsOf w)).2 ++ [Ev.installProjectDeps]
       ++ (concurrentPhase w (buildBackendNames w)).2)

/-! ## Claim theorems about the orchestrator (C6, C1) -/

/-- C6: if the plugin before-hook vetoes every "deps_install" event, the build
returns False having made no installer invocation and submitted no backend
work unit (the event trace is empty altogether). -/
theorem deps_install_hook_aborts (w : World)
    (h : ∀ hk : Hook, hookEvent hk = "deps_install" → w.pluginBefore hk = false) :
    buildRun w = (false, []) := by
  have h1 : w.pluginBefore (Hook.depsInstall DepsType.build) = false := h _ rfl
  have h2 : w.pluginBefore (Hook.depsInstall DepsType.project) = false := h _ rfl
  unfold buildRun
  rw [h1, h2]
  simp only [Bool.not_false, Bool.and_true]
  by_cases hc : w.configExists
  case neg => simp [hc]
  rw [if_neg (by simp [hc])]
  by_cases he : w.configErrors.isEmpty
  case neg => simp [he]
  rw [if_neg (by simp [he])]
  by_cases hv : !w.envExists && !w.pluginBefore Hook.venv
  case pos => rw [if_pos hv]
  rw [if_neg (by simp_all)]
  by_cases hv2 : !w.envExists && !w.envCreateOk
  case pos => rw [if_pos hv2]
  rw [if_neg (by simp_all)]
  by_cases hb : (buildBackendNames w).all w.backendKnown
  case neg => simp [hb]
  rw [if_neg (by simp [hb])]
  by_cases hr : (buildReqsOf w).isEmpty
  case neg =>
    rw [if_pos (by simp [hr])]
  rw [if_neg (by simp [hr])]
  have hstep : buildStepInstall w (buildReqsOf w) = (true, []) := by
    unfold buildStepInstall
    rw [if_pos hr]
  rw [hstep]
  simp

def c6World : World :=
  ⟨true, ⟨some pythonName, []⟩, [], true, true, fun _ => false,
   fun _ => true, fun _ => [], fun _ => true, true, [], fun _ => none, fun _ => none,
   fun _ => true, fun _ => CacheFile.missing, fun _ _ => []⟩

theorem deps_install_hook_aborts_witness : buildRun c6World = (false, []) :=
  deps_install_hook_aborts c6World (fun _ _ => rfl)

def c1World : World :=
  ⟨true, ⟨some (strL "a"), [strL "b"]⟩, [], true, true, fun _ => true,
   fun _ => true, fun _ => [], fun _ => true, true, [], fun _ => none, fun _ => none,
   fun n => n == strL "b",
   fun n => if n == strL "a" then CacheFile.entry (some (strL "cafe")) else CacheFile.missing,
   fun _ _ => strL "cafe"⟩

/-- C1 (code bug): with two selected backends "a" and "b" where backend "a"'s
persisted cache entry holds exactly the computed cache key (the skip predicate
`should_skip_build` returns true for it), `BuildManager.build` nevertheless
submits BOTH backends — the `getattr(self, "_should_skip_build", None)` lookup
finds nothing on BuildManager, the methods live on ProjectInitializer — and
with backend "a" failing and "b" succeeding the overall result is False,
whereas the claim requires "a" to be skipped and the result to equal "b"'s
(True). -/
theorem cache_short_circuit_never_fires :
    should_skip_build (c1World.cacheFile (strL "a"))
        (c1World.cacheKey (strL "a") c1World.config) = true
    ∧ buildRun c1World
        = (false, [Ev.installProjectDeps, Ev.submitBackend (strL "a"),
                   Ev.submitBackend (strL "b")])
    ∧ c1World.runBackend (strL "b") = true := by
  refine ⟨rfl, ?_, rfl⟩
  rfl
